import Mathlib

/-!
# Verification of `src/command-args-viewer.ts`

Shallow embedding of the command-introspection probe.  The external
extension host is modelled as an explicit capability record (`Host`)
providing the registry enumeration (`vscode.commands.getCommands`) and the
invoker (`vscode.commands.executeCommand`).  A probe call is embedded as a
pure function from the host capability and the command identifier to the
probe's outcome, paired with the list of identifiers passed to the invoker
during the call (so that "the invoker is never called" is expressible).

JavaScript subtleties that matter to the claims are modelled explicitly:

* a thrown value may be `null`/`undefined`, in which case the property
  access `error.message` in the catch block itself throws a `TypeError`;
* a thrown non-nullish value may lack a `message` property, in which case
  `error.message` evaluates to `undefined` and the result object carries
  the key `errorMessage` with value `undefined`.

Accordingly `ProbeResult.errorMessage : Option (Option String)` is a
two-level option: the outer layer records whether the key is present in
the returned object, the inner layer whether it holds a string or the
JavaScript value `undefined`.
-/

/-- A JavaScript value thrown by a failing command invocation, classified
by how the property access `error.message` behaves on it: `nullish` is
`null` or `undefined` (the access throws a `TypeError`); `withMessage m`
is a value whose `message` property is the string `m`; `withoutMessage`
is a non-nullish value with no `message` property (the access yields
`undefined`). -/
inductive JSError where
  | nullish
  | withMessage (m : String)
  | withoutMessage
  deriving DecidableEq

/-- The JavaScript property access `error.message`: throws on a nullish
value, yields `some m` when the value carries the message string `m`, and
yields `none` (JavaScript `undefined`) when a non-nullish value has no
`message` property. -/
def jsGetMessage : JSError → Except Unit (Option String)
  | .nullish => .error ()
  | .withMessage m => .ok (some m)
  | .withoutMessage => .ok none

/-- The record returned by `analyzeCommand`.  `exists'` stands for the
source field `exists` (a reserved word in Lean).  `errorMessage` is
`none` when the key is absent from the returned object, `some none` when
the key is present holding JavaScript `undefined`, and `some (some m)`
when it holds the string `m`. -/
structure ProbeResult where
  exists' : Bool
  canExecuteWithoutArgs : Bool
  errorMessage : Option (Option String)
  deriving DecidableEq

/-- The external capability `vscode.commands`: `getCommands` is the
registry enumeration (which may fail with a host error of type `ε`), and
`executeCommand` is the zero-argument invoker, which either completes or
throws a JavaScript value. -/
structure Host (ε : Type) where
  getCommands : Except ε (List String)
  executeCommand : String → Except JSError Unit

/-- A failure propagated out of `analyzeCommand`: either the registry
enumeration itself failed (the rejected promise of `getCommands`), or the
catch block's property access `error.message` threw a `TypeError` because
the caught value was nullish. -/
inductive ProbeError (ε : Type) where
  | registry (e : ε)
  | typeError
  deriving DecidableEq

/-- Embedding of `getAllCommands`: returns the result of the registry
enumeration unchanged. -/
def getAllCommands {ε : Type} (host : Host ε) : Except ε (List String) :=
  host.getCommands

/-- Embedding of `analyzeCommand`.  The first component is the value the
returned promise settles with (a `ProbeResult` on fulfilment, a
`ProbeError` on rejection); the second component is the list of
identifiers passed to `executeCommand` during the call.  Mirrors the
source: enumerate the registry, test membership with `includes`, return
`{exists:false, canExecuteWithoutArgs:false}` without invoking when
absent, otherwise invoke with zero arguments and on failure read
`error.message` into the `errorMessage` key. -/
def analyzeCommand {ε : Type} (host : Host ε) (commandId : String) :
    Except (ProbeError ε) ProbeResult × List String :=
  match host.getCommands with
  | .error e => (.error (.registry e), [])
  | .ok allCommands =>
      let exists' := allCommands.contains commandId
      if !exists' then
        (.ok ⟨false, false, none⟩, [])
      else
        match host.executeCommand commandId with
        | .ok _ => (.ok ⟨true, true, none⟩, [commandId])
        | .error error =>
            match jsGetMessage error with
            | .error _ => (.error .typeError, [commandId])
            | .ok m => (.ok ⟨true, false, some m⟩, [commandId])

/-- C1: for every `commandId` absent from the registry's enumeration, the
probe returns `exists = false`, `canExecuteWithoutArgs = false` with no
`errorMessage` key, and the invoker is never called (the call log is
empty). -/
theorem analyzeCommand_not_registered {ε : Type} (host : Host ε)
    (cmds : List String) (commandId : String)
    (hreg : host.getCommands = .ok cmds)
    (habs : commandId ∉ cmds) :
    analyzeCommand host commandId = (.ok ⟨false, false, none⟩, []) := by
  simp [analyzeCommand, hreg, habs]

/-- Witness for C1: probing `"beta.missing"` against enumeration
`["alpha.run"]` yields the negative result with an empty invoker log. -/
theorem analyzeCommand_not_registered_witness :
    analyzeCommand (⟨.ok ["alpha.run"], fun _ => .ok ()⟩ : Host Unit)
        "beta.missing" = (.ok ⟨false, false, none⟩, []) :=
  analyzeCommand_not_registered _ ["alpha.run"] "beta.missing" rfl (by decide)

/-- C2: for every `commandId` in the enumeration whose zero-argument
invocation completes without error, the probe returns `exists = true`,
`canExecuteWithoutArgs = true` and no `errorMessage` key. -/
theorem analyzeCommand_zero_arg_success {ε : Type} (host : Host ε)
    (cmds : List String) (commandId : String)
    (hreg : host.getCommands = .ok cmds)
    (hmem : commandId ∈ cmds)
    (hexec : host.executeCommand commandId = .ok ()) :
    analyzeCommand host commandId = (.ok ⟨true, true, none⟩, [commandId]) := by
  simp [analyzeCommand, hreg, hmem, hexec]

/-- Witness for C2: probing `"alpha.run"` against enumeration
`["alpha.run"]` with a succeeding invoker. -/
theorem analyzeCommand_zero_arg_success_witness :
    analyzeCommand (⟨.ok ["alpha.run"], fun _ => .ok ()⟩ : Host Unit)
        "alpha.run" = (.ok ⟨true, true, none⟩, ["alpha.run"]) :=
  analyzeCommand_zero_arg_success _ ["alpha.run"] "alpha.run" rfl (by decide) rfl

/-- C3: for every `commandId` in the enumeration whose zero-argument
invocation throws a value carrying the message string `M`, the probe
returns `exists = true`, `canExecuteWithoutArgs = false` and
`errorMessage = M`, the raw message unmodified. -/
theorem analyzeCommand_failure_forwards_message {ε : Type} (host : Host ε)
    (cmds : List String) (commandId M : String)
    (hreg : host.getCommands = .ok cmds)
    (hmem : commandId ∈ cmds)
    (hexec : host.executeCommand commandId = .error (.withMessage M)) :
    analyzeCommand host commandId
      = (.ok ⟨true, false, some (some M)⟩, [commandId]) := by
  simp [analyzeCommand, hreg, hmem, hexec, jsGetMessage]

/-- Witness for C3: probing `"gamma.format"` where invocation fails with
message `"Argument 'uri' is required"` forwards that message verbatim. -/
theorem analyzeCommand_failure_forwards_message_witness :
    analyzeCommand
        (⟨.ok ["gamma.format"],
          fun _ => .error (.withMessage "Argument 'uri' is required")⟩ :
          Host Unit) "gamma.format"
      = (.ok ⟨true, false, some (some "Argument 'uri' is required")⟩,
         ["gamma.format"]) :=
  analyzeCommand_failure_forwards_message _ ["gamma.format"] "gamma.format"
    "Argument 'uri' is required" rfl (by decide) rfl

/-- C4: in every `ProbeResult` the probe returns, the `errorMessage` key
is present exactly when `exists = true` and
`canExecuteWithoutArgs = false`, whatever value the invocation threw
(when the thrown value carries no `message` property the key is present
holding `undefined`, i.e. `some none`). -/
theorem analyzeCommand_errorMessage_presence {ε : Type} (host : Host ε)
    (commandId : String) (r : ProbeResult)
    (h : (analyzeCommand host commandId).1 = .ok r) :
    r.errorMessage.isSome = (r.exists' && !r.canExecuteWithoutArgs) := by
  rcases hreg : host.getCommands with e | cmds
  · simp [analyzeCommand, hreg] at h
  · by_cases hmem : commandId ∈ cmds
    · rcases hexec : host.executeCommand commandId with err | u
      · cases err
        · have hv : (analyzeCommand host commandId).1 = .error .typeError := by
            simp [analyzeCommand, hreg, hmem, hexec, jsGetMessage]
          rw [hv] at h
          simp at h
        · rename_i m
          have hv : (analyzeCommand host commandId).1
              = .ok ⟨true, false, some (some m)⟩ := by
            simp [analyzeCommand, hreg, hmem, hexec, jsGetMessage]
          rw [hv] at h
          injection h with h
          subst h
          rfl
        · have hv : (analyzeCommand host commandId).1
              = .ok ⟨true, false, some none⟩ := by
            simp [analyzeCommand, hreg, hmem, hexec, jsGetMessage]
          rw [hv] at h
          injection h with h
          subst h
          rfl
      · have hv : (analyzeCommand host commandId).1 = .ok ⟨true, true, none⟩ := by
          simp [analyzeCommand, hreg, hmem, hexec]
        rw [hv] at h
        injection h with h
        subst h
        rfl
    · have hv : (analyzeCommand host commandId).1 = .ok ⟨false, false, none⟩ := by
        simp [analyzeCommand, hreg, hmem]
      rw [hv] at h
      injection h with h
      subst h
      rfl

/-- Witness for C4: a probe whose invocation throws a value with no
`message` property returns `⟨true, false, some none⟩`, where the
`errorMessage` key is present exactly because `exists = true` and
`canExecuteWithoutArgs = false`. -/
theorem analyzeCommand_errorMessage_presence_witness :
    (ProbeResult.mk true false (some none)).errorMessage.isSome
      = ((ProbeResult.mk true false (some none)).exists'
          && !(ProbeResult.mk true false (some none)).canExecuteWithoutArgs) :=
  analyzeCommand_errorMessage_presence
    (⟨.ok ["a"], fun _ => .error .withoutMessage⟩ : Host Unit) "a" _ rfl

/-- Counterexample to C5 as stated: with enumeration `["a"]` (the
registry call succeeds) and an invocation that throws a nullish value,
the probe still raises — the catch block's `error.message` access throws
a `TypeError` — so "raises if and only if the registry enumeration fails"
is false. -/
theorem analyzeCommand_raises_despite_registry_ok :
    (Host.getCommands
        (⟨.ok ["a"], fun _ => .error .nullish⟩ : Host Unit) = .ok ["a"])
    ∧ (analyzeCommand (⟨.ok ["a"], fun _ => .error .nullish⟩ : Host Unit)
        "a").1 = .error .typeError :=
  ⟨rfl, rfl⟩

/-- C5 amended: the probe rejects with a registry failure exactly when the
enumeration call fails, and rejects with a `TypeError` exactly when the
registered command's zero-argument invocation throws a nullish value; in
particular every message-bearing invocation failure is converted into the
result's `errorMessage` field rather than propagated. -/
theorem analyzeCommand_raise_characterization {ε : Type} (host : Host ε)
    (commandId : String) :
    ((∃ e, (analyzeCommand host commandId).1 = .error (.registry e)) ↔
      ∃ e, host.getCommands = .error e)
    ∧ ((analyzeCommand host commandId).1 = .error .typeError ↔
      ∃ cmds, host.getCommands = .ok cmds
        ∧ commandId ∈ cmds
        ∧ host.executeCommand commandId = .error .nullish)
    ∧ (∀ cmds M, host.getCommands = .ok cmds →
        commandId ∈ cmds →
        host.executeCommand commandId = .error (.withMessage M) →
        (analyzeCommand host commandId).1 = .ok ⟨true, false, some (some M)⟩) := by
  refine ⟨?_, ?_, ?_⟩
  · rcases hreg : host.getCommands with e | cmds
    · simp [analyzeCommand, hreg]
    · constructor
      · rintro ⟨e, he⟩
        by_cases hmem : commandId ∈ cmds
        · rcases hexec : host.executeCommand commandId with err | u
          · cases err <;>
              simp [analyzeCommand, hreg, hmem, hexec, jsGetMessage] at he
          · simp [analyzeCommand, hreg, hmem, hexec] at he
        · simp [analyzeCommand, hreg, hmem] at he
      · rintro ⟨e, he⟩
        exact Except.noConfusion he
  · constructor
    · intro hte
      rcases hreg : host.getCommands with e | cmds
      · simp [analyzeCommand, hreg] at hte
      · by_cases hmem : commandId ∈ cmds
        · rcases hexec : host.executeCommand commandId with err | u
          · cases err
            · exact ⟨cmds, rfl, hmem, rfl⟩
            · simp [analyzeCommand, hreg, hmem, hexec, jsGetMessage] at hte
            · simp [analyzeCommand, hreg, hmem, hexec, jsGetMessage] at hte
          · simp [analyzeCommand, hreg, hmem, hexec] at hte
        · simp [analyzeCommand, hreg, hmem] at hte
    · rintro ⟨cmds, hreg, hmem, hexec⟩
      simp [analyzeCommand, hreg, hmem, hexec, jsGetMessage]
  · intro cmds M hreg hmem hexec
    simp [analyzeCommand, hreg, hmem, hexec, jsGetMessage]

/-- C6: when the zero-argument invocation of a registered command throws a
(non-nullish) value carrying no `message` property, the probe returns
`exists = true`, `canExecuteWithoutArgs = false`, and the `errorMessage`
key holds the absent value `undefined` (modelled `some none`): no message
string. -/
theorem analyzeCommand_messageless_failure {ε : Type} (host : Host ε)
    (cmds : List String) (commandId : String)
    (hreg : host.getCommands = .ok cmds)
    (hmem : commandId ∈ cmds)
    (hexec : host.executeCommand commandId = .error .withoutMessage) :
    analyzeCommand host commandId
      = (.ok ⟨true, false, some none⟩, [commandId]) := by
  simp [analyzeCommand, hreg, hmem, hexec, jsGetMessage]

/-- Witness for C6: probing `"a"` where the invocation throws an object
with no `message` property. -/
theorem analyzeCommand_messageless_failure_witness :
    analyzeCommand
        (⟨.ok ["a"], fun _ => .error .withoutMessage⟩ : Host Unit) "a"
      = (.ok ⟨true, false, some none⟩, ["a"]) :=
  analyzeCommand_messageless_failure _ ["a"] "a" rfl (by decide) rfl

/-- C7: `getAllCommands` returns exactly what the registry enumeration
reports — the same sequence, order and duplicates untouched, and the same
failure when the enumeration fails — with no local recovery. -/
theorem getAllCommands_passthrough {ε : Type} (host : Host ε) :
    getAllCommands host = host.getCommands :=
  rfl

/-- C8: the probe validates nothing about `commandId`: for every string,
the empty string included, the membership test is taken on the unchanged
string and the algorithm proceeds normally — the invoker is called (with
that same string) exactly when the string is a member of the enumeration,
and the negative result is returned exactly when it is not. -/
theorem analyzeCommand_no_input_validation {ε : Type} (host : Host ε)
    (cmds : List String) (commandId : String)
    (hreg : host.getCommands = .ok cmds) :
    (analyzeCommand host commandId).2
        = (if commandId ∈ cmds then [commandId] else [])
    ∧ ((analyzeCommand host commandId).1 = .ok ⟨false, false, none⟩
        ↔ commandId ∉ cmds) := by
  by_cases hmem : commandId ∈ cmds
  · rcases hexec : host.executeCommand commandId with err | u
    · cases err <;> simp [analyzeCommand, hreg, hmem, hexec, jsGetMessage]
    · simp [analyzeCommand, hreg, hmem, hexec]
  · simp [analyzeCommand, hreg, hmem]

/-- Witness for C8: the empty string is passed through to the membership
lookup unchanged — against enumeration `["alpha.run"]` it is simply not a
member, so the invoker log is empty and the negative result is
returned. -/
theorem analyzeCommand_no_input_validation_witness :
    (analyzeCommand (⟨.ok ["alpha.run"], fun _ => .ok ()⟩ : Host Unit) "").2
        = (if "" ∈ ["alpha.run"] then [""] else [])
    ∧ ((analyzeCommand (⟨.ok ["alpha.run"], fun _ => .ok ()⟩ : Host Unit)
          "").1 = .ok ⟨false, false, none⟩
        ↔ "" ∉ ["alpha.run"]) :=
  analyzeCommand_no_input_validation _ ["alpha.run"] "" rfl

/-- C9: the probe depends on the enumeration only through membership of
`commandId`: two hosts with the same invoker whose enumerations agree on
that membership — in particular any permutation or duplication of the
entries — produce identical outcomes and identical invoker logs. -/
theorem analyzeCommand_membership_invariance {ε : Type}
    (exec : String → Except JSError Unit) (l1 l2 : List String)
    (commandId : String)
    (h : l1.contains commandId = l2.contains commandId) :
    analyzeCommand (⟨.ok l1, exec⟩ : Host ε) commandId
      = analyzeCommand (⟨.ok l2, exec⟩ : Host ε) commandId := by
  simp only [analyzeCommand, h]

/-- Witness for C9: `["b", "a"]` is a permutation of `["a", "b"]` with a
duplicated entry added; probing `"a"` gives the same outcome over both
enumerations. -/
theorem analyzeCommand_membership_invariance_witness :
    analyzeCommand
        (⟨.ok ["a", "b"], fun _ => .ok ()⟩ : Host Unit) "a"
      = analyzeCommand
        (⟨.ok ["b", "a", "a"], fun _ => .ok ()⟩ : Host Unit) "a" :=
  analyzeCommand_membership_invariance (fun _ => .ok ()) ["a", "b"]
    ["b", "a", "a"] "a" (by decide)

/-- C10: when the zero-argument invocation of a registered command throws
a nullish value (`null` or `undefined`), the probe does not return a
`ProbeResult`: reading `message` off the caught value throws, and that
secondary `TypeError` propagates to the caller. -/
theorem analyzeCommand_nullish_propagates {ε : Type} (host : Host ε)
    (cmds : List String) (commandId : String)
    (hreg : host.getCommands = .ok cmds)
    (hmem : commandId ∈ cmds)
    (hexec : host.executeCommand commandId = .error .nullish) :
    (analyzeCommand host commandId).1 = .error .typeError := by
  simp [analyzeCommand, hreg, hmem, hexec, jsGetMessage]

/-- Witness for C10: probing `"a"` where the invocation throws `null`
rejects with the secondary `TypeError`. -/
theorem analyzeCommand_nullish_propagates_witness :
    (analyzeCommand
        (⟨.ok ["a"], fun _ => .error .nullish⟩ : Host Unit) "a").1
      = .error .typeError :=
  analyzeCommand_nullish_propagates _ ["a"] "a" rfl (by decide) rfl
